import Mathlib

/-!
Verification development for the `ffutil` Go package, a wrapper around the
`ffmpeg` / `ffprobe` command-line tools.  The pure computational core of the
package — the ffprobe-report reduction (`Probe` / `Duration`), the ffmpeg
command builder (`Command.Build` / `Command.String`), and the encoder
classification and selection logic (`isHardwareEncoder`, `EncoderAvailable`,
`BestH264Encoder`, `BestHEVCEncoder`) — is embedded shallowly below.
Process invocation itself (spawning the external binaries) is modelled by
passing the external tool's textual output (or `Option`/function stubs for
availability checks) as explicit arguments to the embedded functions.

Modelling conventions:
* Go `string` is Lean `String` (the relevant data is ASCII, where Go's
  byte-wise operations and Lean's character-wise operations agree).
* Go `int` / `int64` are Lean `Int`; Go `float64` values that the package
  merely formats or stores are modelled as exact rationals `ℚ`.
* Go's randomized map iteration order is modelled by passing the enumeration
  order of the metadata map as an explicit list argument.
-/

/-- Character code of the double-quote character. -/
def quoteChar : Char := Char.ofNat 34

/-- Character code of the single-quote (apostrophe) character. -/
def aposChar : Char := Char.ofNat 39

/-- Decimal digit character for a digit value `n < 10` (ASCII `'0' + n`). -/
def digitChar (n : Nat) : Char := Char.ofNat (48 + n)

/-- Fuelled most-significant-first decimal digit expansion of a natural
number; used to model Go's `strconv.Itoa` / `%d` formatting.  The fuel is
always instantiated with `n + 1`, which is sufficient. -/
def natCharsAux : Nat → Nat → List Char
  | 0, _ => []
  | fuel + 1, n =>
    if n < 10 then [digitChar n]
    else natCharsAux fuel (n / 10) ++ [digitChar (n % 10)]

/-- Decimal digit string of a natural number, as a character list. -/
def natChars (n : Nat) : List Char := natCharsAux (n + 1) n

/-- Decimal representation of a natural number (models Go decimal
formatting of non-negative integers). -/
def natStr (n : Nat) : String := (natChars n).asString

/-- Decimal representation of an integer (models Go's `strconv.Itoa` and
`fmt.Sprintf` with `%d`). -/
def intStr (i : Int) : String :=
  (if i < 0 then "-" else "") ++ natStr i.natAbs

/-- Go `unicode.IsSpace` restricted to the ASCII whitespace characters
(space, tab, newline, carriage return, vertical tab, form feed); the inputs
handled by the package (ffprobe numeric output) contain no other
whitespace. -/
def isSpaceChar (c : Char) : Bool :=
  c = ' ' || c = '\t' || c = '\n' || c = '\r' || c = Char.ofNat 11 || c = Char.ofNat 12

/-- Go `strings.TrimSpace`: removes leading and trailing whitespace. -/
def trimSpace (s : String) : String :=
  (((s.toList.dropWhile isSpaceChar).reverse.dropWhile isSpaceChar).reverse).asString

/-- Numeric value of a list of decimal digit characters. -/
def digitsVal (l : List Char) : Nat :=
  l.foldl (fun a c => 10 * a + (c.toNat - 48)) 0

/-- Go `strconv.ParseInt (s, 10, 64)` (and `strconv.Atoi` on 64-bit
platforms): an optional sign followed by at least one decimal digit, with a
64-bit range check; `none` models a non-nil `error`. -/
def parseInt? (s : String) : Option Int :=
  let cs := s.toList
  let p : Bool × List Char :=
    match cs with
    | '+' :: t => (false, t)
    | '-' :: t => (true, t)
    | _ => (false, cs)
  let neg := p.1
  let ds := p.2
  if ds = [] || !(ds.all Char.isDigit) then none
  else
    let n : Int := (digitsVal ds : Int)
    let v : Int := if neg then -n else n
    if v < -(2 ^ 63) || 2 ^ 63 ≤ v then none else some v

/-- Go `strconv.ParseFloat (s, 64)` restricted to the decimal forms
(`[sign] digits [. digits] [e|E [sign] digits]`, with at least one mantissa
digit); the hexadecimal, `Inf` and `NaN` spellings, and digit-group
underscores accepted by Go never occur in ffprobe numeric output.  The value
is kept exact as a rational; `none` models a non-nil `error`. -/
def parseFloat? (s : String) : Option ℚ :=
  let cs := s.toList
  let p : Int × List Char :=
    match cs with
    | '+' :: t => (1, t)
    | '-' :: t => (-1, t)
    | _ => (1, cs)
  let sgn := p.1
  let cs1 := p.2
  let ip := cs1.takeWhile Char.isDigit
  let r1 := cs1.dropWhile Char.isDigit
  let q : List Char × List Char :=
    match r1 with
    | '.' :: t => (t.takeWhile Char.isDigit, t.dropWhile Char.isDigit)
    | _ => ([], r1)
  let fp := q.1
  let r2 := q.2
  if ip.length + fp.length = 0 then none
  else
    let mant : Int := sgn * (digitsVal (ip ++ fp) : Int)
    match r2 with
    | [] => some (mkRat mant (10 ^ fp.length))
    | e :: t =>
      if e = 'e' || e = 'E' then
        let ep : Bool × List Char :=
          match t with
          | '+' :: t2 => (true, t2)
          | '-' :: t2 => (false, t2)
          | _ => (true, t)
        let epos := ep.1
        let t1 := ep.2
        if t1 = [] || !(t1.all Char.isDigit) then none
        else
          let ev : Nat := digitsVal t1
          some (if epos then mkRat (mant * 10 ^ ev) (10 ^ fp.length)
                else mkRat mant (10 ^ fp.length * 10 ^ ev))
      else none

/-- Round the non-negative fraction `n / d` (with `d > 0`) to the nearest
natural number, ties to even — the rounding Go's `strconv.FormatFloat`
applies to the decimal digits it emits. -/
def roundHalfToEven (n d : Nat) : Nat :=
  let f := n / d
  let r2 := 2 * (n % d)
  if r2 < d then f
  else if d < r2 then f + 1
  else if f % 2 = 0 then f else f + 1

/-- Three-digit zero-padded decimal representation of `r < 1000`. -/
def pad3 (r : Nat) : String :=
  (if r < 10 then "00" else if r < 100 then "0" else "") ++ natStr r

/-- Go `formatDuration` (`strconv.FormatFloat (seconds, 'f', 3, 64)`):
fixed-point decimal text with exactly three fractional digits.  The digit
string is obtained by rounding `|seconds| * 1000` — written as the exact
fraction `|seconds.num| * 1000 / seconds.den` — to the nearest integer,
ties to even, then splitting it at the thousands. -/
def formatDuration (seconds : ℚ) : String :=
  let m : Nat := roundHalfToEven (seconds.num.natAbs * 1000) seconds.den
  (if seconds < 0 then "-" else "") ++ natStr (m / 1000) ++ "." ++ pad3 (m % 1000)

/-! ## Probe data model (src/probe.go) -/

/-- Go struct `ffprobeStream`: one entry of the `streams` array of the
ffprobe JSON report. -/
structure ffprobeStream where
  CodecType : String
  CodecName : String
  Width : Int
  Height : Int
  SampleRate : String
  Channels : Int
deriving DecidableEq

/-- Go struct `ffprobeFormat`: the `format` object of the ffprobe JSON
report. -/
structure ffprobeFormat where
  Filename : String
  FormatName : String
  Duration : String
  BitRate : String
deriving DecidableEq

/-- Go struct `ffprobeOutput`: the decoded ffprobe JSON report. -/
structure ffprobeOutput where
  Format : ffprobeFormat
  Streams : List ffprobeStream
deriving DecidableEq

/-- Go struct `MediaInfo`.  `Duration` is kept in exact seconds (the Go code
stores `time.Duration(dur * float64(time.Second))`, i.e. the same value in
nanoseconds); every claim about it concerns only whether it is zero or the
parsed value. -/
structure MediaInfo where
  Path : String := ""
  Duration : ℚ := 0
  Format : String := ""
  Width : Int := 0
  Height : Int := 0
  VideoCodec : String := ""
  AudioCodec : String := ""
  SampleRate : Int := 0
  Channels : Int := 0
  Bitrate : Int := 0
  HasVideo : Bool := false
  HasAudio : Bool := false
deriving DecidableEq

/-- One iteration of the stream loop of `Probe` (src/probe.go lines
117-135): a `"video"` stream overwrites the video fields, an `"audio"`
stream overwrites the audio fields (the sample rate only when its decimal
string is nonempty and parses); other codec types are ignored. -/
def applyStream (info : MediaInfo) (stream : ffprobeStream) : MediaInfo :=
  if stream.CodecType = "video" then
    { info with
      HasVideo := true
      VideoCodec := stream.CodecName
      Width := stream.Width
      Height := stream.Height }
  else if stream.CodecType = "audio" then
    let info := { info with
      HasAudio := true
      AudioCodec := stream.CodecName
      Channels := stream.Channels }
    if stream.SampleRate ≠ "" then
      match parseInt? stream.SampleRate with
      | some sr => { info with SampleRate := sr }
      | none => info
    else info
  else info

/-- The pure reduction performed by Go `Probe` after the ffprobe JSON report
has been decoded (src/probe.go lines 98-137): build the `MediaInfo` from the
format object (duration and bitrate keep their zero value when the reported
string is empty or does not parse), then fold the stream loop over the
reported stream list. -/
def probeReduce (path : String) (output : ffprobeOutput) : MediaInfo :=
  let info : MediaInfo := { Path := path, Format := output.Format.FormatName }
  let info :=
    if output.Format.Duration ≠ "" then
      match parseFloat? output.Format.Duration with
      | some dur => { info with Duration := dur }
      | none => info
    else info
  let info :=
    if output.Format.BitRate ≠ "" then
      match parseInt? output.Format.BitRate with
      | some br => { info with Bitrate := br }
      | none => info
    else info
  output.Streams.foldl applyStream info

/-- Error cases of the Go `Duration` query after a successful ffprobe
invocation. -/
inductive DurationError where
  | valueUnavailable
  | parseFailed
deriving DecidableEq

/-- The pure part of Go `Duration` (src/probe.go lines 159-169) applied to
the captured standard output of a successful ffprobe invocation: trim
whitespace; an empty or `"N/A"` value fails with the value-unavailable
error; an unparsable value fails with a parse error; otherwise the parsed
duration is returned.  The pair mirrors Go's `(time.Duration, error)` return
(zero duration accompanies every error). -/
def DurationFromOutput (stdout : String) : ℚ × Option DurationError :=
  let durStr := trimSpace stdout
  if durStr = "" || durStr = "N/A" then (0, some .valueUnavailable)
  else
    match parseFloat? durStr with
    | none => (0, some .parseFailed)
    | some dur => (dur, none)

/-! ## Command builder data model (the ffmpeg command source file) -/

/-- Go struct `inputSpec`: an input file with optional parameters. -/
structure InputSpec where
  path : String := ""
  format : String := ""
  frameRate : Int := 0
  loop : Bool := false
  duration : ℚ := 0
  startTime : ℚ := 0
deriving DecidableEq

/-- Go struct `Command`: the ffmpeg command builder accumulator.  The
`metadata` map is modelled as an association list with unique keys in
insertion order; its Go iteration order is unspecified and is therefore
passed to `Build` separately. -/
structure Command where
  inputs : List InputSpec := []
  outputPath : String := ""
  videoCodec : String := ""
  audioCodec : String := ""
  videoBitrate : String := ""
  audioBitrate : String := ""
  width : Int := 0
  height : Int := 0
  fps : Int := 0
  crf : Int := 0
  preset : String := ""
  pixelFormat : String := ""
  audioRate : Int := 0
  channels : Int := 0
  duration : ℚ := 0
  startTime : ℚ := 0
  copyVideo : Bool := false
  copyAudio : Bool := false
  noAudio : Bool := false
  noVideo : Bool := false
  overwrite : Bool := true
  extraArgs : List String := []
  filterVideo : String := ""
  filterAudio : String := ""
  filterComplex : String := ""
  metadata : List (String × String) := []
deriving DecidableEq

/-- Go `New`: a fresh builder with `overwrite` enabled and an empty
metadata map. -/
def New : Command := {}

/-- Go `Command.Input`. -/
def Command.Input (c : Command) (path : String) : Command :=
  { c with inputs := c.inputs ++ [{ path := path }] }

/-- Go `Command.InputWithFormat`. -/
def Command.InputWithFormat (c : Command) (path format : String) : Command :=
  { c with inputs := c.inputs ++ [{ path := path, format := format }] }

/-- Go `Command.InputImage`. -/
def Command.InputImage (c : Command) (path : String) (frameRate : Int) : Command :=
  { c with inputs := c.inputs ++ [{ path := path, loop := true, frameRate := frameRate }] }

/-- Go `Command.InputWithDuration`. -/
def Command.InputWithDuration (c : Command) (path : String) (duration : ℚ) : Command :=
  { c with inputs := c.inputs ++ [{ path := path, duration := duration }] }

/-- Go `Command.Output`. -/
def Command.Output (c : Command) (path : String) : Command :=
  { c with outputPath := path }

/-- Go `Command.VideoCodec`: sets the video codec and clears the
copy-video flag. -/
def Command.VideoCodec (c : Command) (codec : String) : Command :=
  { c with videoCodec := codec, copyVideo := false }

/-- Go `Command.AudioCodec`: sets the audio codec and clears the
copy-audio flag. -/
def Command.AudioCodec (c : Command) (codec : String) : Command :=
  { c with audioCodec := codec, copyAudio := false }

/-- Go `Command.CopyVideo`: sets the copy-video flag and clears the video
codec. -/
def Command.CopyVideo (c : Command) : Command :=
  { c with copyVideo := true, videoCodec := "" }

/-- Go `Command.CopyAudio`: sets the copy-audio flag and clears the audio
codec. -/
def Command.CopyAudio (c : Command) : Command :=
  { c with copyAudio := true, audioCodec := "" }

/-- Go `Command.NoAudio`. -/
def Command.NoAudio (c : Command) : Command := { c with noAudio := true }

/-- Go `Command.NoVideo`. -/
def Command.NoVideo (c : Command) : Command := { c with noVideo := true }

/-- Go `Command.Size`. -/
def Command.Size (c : Command) (width height : Int) : Command :=
  { c with width := width, height := height }

/-- Go `Command.FPS`. -/
def Command.FPS (c : Command) (fps : Int) : Command := { c with fps := fps }

/-- Go `Command.CRF`. -/
def Command.CRF (c : Command) (crf : Int) : Command := { c with crf := crf }

/-- Go `Command.Preset`. -/
def Command.Preset (c : Command) (preset : String) : Command :=
  { c with preset := preset }

/-- Go `Command.PixelFormat`. -/
def Command.PixelFormat (c : Command) (format : String) : Command :=
  { c with pixelFormat := format }

/-- Go `Command.VideoBitrate`. -/
def Command.VideoBitrate (c : Command) (bitrate : String) : Command :=
  { c with videoBitrate := bitrate }

/-- Go `Command.AudioBitrate`. -/
def Command.AudioBitrate (c : Command) (bitrate : String) : Command :=
  { c with audioBitrate := bitrate }

/-- Go `Command.AudioRate`. -/
def Command.AudioRate (c : Command) (rate : Int) : Command :=
  { c with audioRate := rate }

/-- Go `Command.Channels`. -/
def Command.Channels (c : Command) (channels : Int) : Command :=
  { c with channels := channels }

/-- Go `Command.Duration`. -/
def Command.Duration (c : Command) (seconds : ℚ) : Command :=
  { c with duration := seconds }

/-- Go `Command.StartTime`. -/
def Command.StartTime (c : Command) (seconds : ℚ) : Command :=
  { c with startTime := seconds }

/-- Go `Command.Overwrite`. -/
def Command.Overwrite (c : Command) (overwrite : Bool) : Command :=
  { c with overwrite := overwrite }

/-- Go `Command.VideoFilter`. -/
def Command.VideoFilter (c : Command) (filter : String) : Command :=
  { c with filterVideo := filter }

/-- Go `Command.AudioFilter`. -/
def Command.AudioFilter (c : Command) (filter : String) : Command :=
  { c with filterAudio := filter }

/-- Go `Command.FilterComplex`. -/
def Command.FilterComplex (c : Command) (filter : String) : Command :=
  { c with filterComplex := filter }

/-- Go map assignment `c.metadata[key] = value` on the association-list
model: overwrite the entry with the given key, or append a new one. -/
def mapSet (m : List (String × String)) (key value : String) : List (String × String) :=
  if m.any (fun kv => kv.1 = key) then
    m.map (fun kv => if kv.1 = key then (key, value) else kv)
  else m ++ [(key, value)]

/-- Go `Command.Metadata`. -/
def Command.Metadata (c : Command) (key value : String) : Command :=
  { c with metadata := mapSet c.metadata key value }

/-- Go `Command.Args` (variadic passthrough arguments). -/
def Command.Args (c : Command) (args : List String) : Command :=
  { c with extraArgs := c.extraArgs ++ args }

/-! ## Rendering (Go `Command.Build` and `Command.String`)

`Build` takes the enumeration order `md` of the metadata map as an explicit
argument: the Go code iterates the map with `range`, whose order is
unspecified (and randomized by the Go runtime), so a faithful embedding
quantifies over the order.  Any permutation of `c.metadata` is a possible
order; the actual Go call corresponds to some such permutation. -/

/-- The `// Global options` block of Go `Command.Build`. -/
def overwriteStep (c : Command) (args : List String) : List String :=
  if c.overwrite then args ++ ["-y"] else args

/-- The body of the `// Input options` loop of Go `Command.Build`: the
conditional appends for one input, then `-i` and the input path. -/
def inputStep (args : List String) (input : InputSpec) : List String :=
  let args := if input.loop then args ++ ["-loop", "1"] else args
  let args := if 0 < input.frameRate then args ++ ["-framerate", intStr input.frameRate] else args
  let args := if input.format ≠ "" then args ++ ["-f", input.format] else args
  let args := if 0 < input.duration then args ++ ["-t", formatDuration input.duration] else args
  let args := if 0 < input.startTime then args ++ ["-ss", formatDuration input.startTime] else args
  args ++ ["-i", input.path]

/-- The `// Filter options` block of Go `Command.Build`. -/
def filterStep (c : Command) (args : List String) : List String :=
  let args := if c.filterComplex ≠ "" then args ++ ["-filter_complex", c.filterComplex] else args
  let args := if c.filterVideo ≠ "" then args ++ ["-vf", c.filterVideo] else args
  if c.filterAudio ≠ "" then args ++ ["-af", c.filterAudio] else args

/-- The video `if`/`else` selection chain of Go `Command.Build` (lines
637-643): disable, or copy, or explicit codec, or nothing. -/
def videoSelStep (c : Command) (args : List String) : List String :=
  if c.noVideo then args ++ ["-vn"]
  else if c.copyVideo then args ++ ["-c:v", "copy"]
  else if c.videoCodec ≠ "" then args ++ ["-c:v", c.videoCodec]
  else args

/-- The video parameter appends of Go `Command.Build` (lines 645-667). -/
def videoParamStep (c : Command) (args : List String) : List String :=
  let args := if 0 < c.width ∧ 0 < c.height then args ++ ["-s", intStr c.width ++ "x" ++ intStr c.height] else args
  let args := if 0 < c.fps then args ++ ["-r", intStr c.fps] else args
  let args := if 0 < c.crf then args ++ ["-crf", intStr c.crf] else args
  let args := if c.preset ≠ "" then args ++ ["-preset", c.preset] else args
  let args := if c.pixelFormat ≠ "" then args ++ ["-pix_fmt", c.pixelFormat] else args
  if c.videoBitrate ≠ "" then args ++ ["-b:v", c.videoBitrate] else args

/-- The audio `if`/`else` selection chain of Go `Command.Build` (lines
670-676): disable, or copy, or explicit codec, or nothing. -/
def audioSelStep (c : Command) (args : List String) : List String :=
  if c.noAudio then args ++ ["-an"]
  else if c.copyAudio then args ++ ["-c:a", "copy"]
  else if c.audioCodec ≠ "" then args ++ ["-c:a", c.audioCodec]
  else args

/-- The audio parameter appends of Go `Command.Build` (lines 678-688). -/
def audioParamStep (c : Command) (args : List String) : List String :=
  let args := if c.audioBitrate ≠ "" then args ++ ["-b:a", c.audioBitrate] else args
  let args := if 0 < c.audioRate then args ++ ["-ar", intStr c.audioRate] else args
  if 0 < c.channels then args ++ ["-ac", intStr c.channels] else args

/-- The `// Output options` trim block of Go `Command.Build` (lines
690-697). -/
def trimStep (c : Command) (args : List String) : List String :=
  let args := if 0 < c.duration then args ++ ["-t", formatDuration c.duration] else args
  if 0 < c.startTime then args ++ ["-ss", formatDuration c.startTime] else args

/-- The `// Metadata` loop of Go `Command.Build` (lines 699-702), iterating
the map in the enumeration order `md`. -/
def metadataStep (md : List (String × String)) (args : List String) : List String :=
  md.foldl (fun args kv => args ++ ["-metadata", kv.1 ++ "=" ++ kv.2]) args

/-- The `// Output path` block of Go `Command.Build`. -/
def outputStep (c : Command) (args : List String) : List String :=
  if c.outputPath ≠ "" then args ++ [c.outputPath] else args

/-- Go `Command.Build` (the ffmpeg command source file, lines 596-713):
the blocks above applied to the accumulating argument list in source
order; `md` is the enumeration order of the metadata map used by this
particular call. -/
def Command.Build (c : Command) (md : List (String × String)) : List String :=
  let args : List String := []
  let args := overwriteStep c args
  let args := c.inputs.foldl inputStep args
  let args := filterStep c args
  let args := videoSelStep c args
  let args := videoParamStep c args
  let args := audioSelStep c args
  let args := audioParamStep c args
  let args := trimStep c args
  let args := metadataStep md args
  let args := args ++ c.extraArgs
  outputStep c args

/-- Go `strings.ContainsAny (arg, " \t\n\x22'")`: does the argument contain
a space, tab, newline, double quote or single quote? -/
def needsQuoting (arg : String) : Bool :=
  arg.toList.any (fun ch => ch = ' ' || ch = '\t' || ch = '\n' || ch = quoteChar || ch = aposChar)

/-- Escape of one character inside a Go `%q` double-quoted string literal,
modelled for the printable-ASCII and whitespace characters that occur in
command arguments (Go additionally escapes other control and non-printable
characters, which never appear here). -/
def escapeChar (ch : Char) : String :=
  if ch = quoteChar then ⟨['\\', quoteChar]⟩
  else if ch = '\\' then "\\\\"
  else if ch = '\t' then "\\t"
  else if ch = '\n' then "\\n"
  else if ch = '\r' then "\\r"
  else ⟨[ch]⟩

/-- Go `fmt.Sprintf ("%q", arg)`: the argument wrapped in double quotes
with its characters escaped. -/
def goQuote (arg : String) : String :=
  ⟨[quoteChar]⟩ ++ String.join (arg.toList.map escapeChar) ++ ⟨[quoteChar]⟩

/-- The per-argument step of Go `Command.String`: quote the argument with
`%q` when it contains whitespace or a quote character, else leave it
bare. -/
def quoteIfNeeded (arg : String) : String :=
  if needsQuoting arg then goQuote arg else arg

/-- Go `Command.String` (lines 715-727): the invocation name `"ffmpeg"`
followed by the rendered arguments, each quoted if needed, joined by single
spaces.  `md` is the metadata enumeration order passed through to
`Build`. -/
def CommandString (c : Command) (md : List (String × String)) : String :=
  "ffmpeg " ++ String.intercalate " " ((c.Build md).map quoteIfNeeded)

/-! ## Encoder discovery (src/encoder.go)

Process invocations are modelled by explicit arguments: `EncoderAvailable`
takes the captured output of `ffmpeg -hide_banner -encoders` as an
`Option String` (`none` models a failed invocation), and the best-encoder
selectors take the platform name `goos` and an availability stub
`avail : String → Bool` standing for `EncoderAvailable`. -/

/-- Go struct `Encoder`.  The Go field `Type` (`"software"` or
`"hardware"`) is named `EncType` here because `Type` is a Lean keyword. -/
structure Encoder where
  Name : String
  Description : String
  EncType : String
deriving DecidableEq

/-- Entry `H264VideoToolbox` of the Go `CommonEncoders` table. -/
def CommonEncoders.H264VideoToolbox : Encoder :=
  ⟨"h264_videotoolbox", "Apple VideoToolbox H.264", "hardware"⟩

/-- Entry `H264NVENC` of the Go `CommonEncoders` table. -/
def CommonEncoders.H264NVENC : Encoder := ⟨"h264_nvenc", "NVIDIA NVENC H.264", "hardware"⟩

/-- Entry `H264QSV` of the Go `CommonEncoders` table. -/
def CommonEncoders.H264QSV : Encoder := ⟨"h264_qsv", "Intel QuickSync H.264", "hardware"⟩

/-- Entry `H264AMF` of the Go `CommonEncoders` table. -/
def CommonEncoders.H264AMF : Encoder := ⟨"h264_amf", "AMD AMF H.264", "hardware"⟩

/-- Entry `H264VAAPI` of the Go `CommonEncoders` table. -/
def CommonEncoders.H264VAAPI : Encoder := ⟨"h264_vaapi", "VA-API H.264", "hardware"⟩

/-- Entry `Libx264` of the Go `CommonEncoders` table. -/
def CommonEncoders.Libx264 : Encoder := ⟨"libx264", "x264 H.264 (software)", "software"⟩

/-- Entry `HEVCVideoToolbox` of the Go `CommonEncoders` table. -/
def CommonEncoders.HEVCVideoToolbox : Encoder :=
  ⟨"hevc_videotoolbox", "Apple VideoToolbox HEVC", "hardware"⟩

/-- Entry `HEVCNVENC` of the Go `CommonEncoders` table. -/
def CommonEncoders.HEVCNVENC : Encoder := ⟨"hevc_nvenc", "NVIDIA NVENC HEVC", "hardware"⟩

/-- Entry `HEVCQSV` of the Go `CommonEncoders` table. -/
def CommonEncoders.HEVCQSV : Encoder := ⟨"hevc_qsv", "Intel QuickSync HEVC", "hardware"⟩

/-- Entry `HEVCAMF` of the Go `CommonEncoders` table. -/
def CommonEncoders.HEVCAMF : Encoder := ⟨"hevc_amf", "AMD AMF HEVC", "hardware"⟩

/-- Entry `HEVCVAAPI` of the Go `CommonEncoders` table. -/
def CommonEncoders.HEVCVAAPI : Encoder := ⟨"hevc_vaapi", "VA-API HEVC", "hardware"⟩

/-- Entry `Libx265` of the Go `CommonEncoders` table. -/
def CommonEncoders.Libx265 : Encoder := ⟨"libx265", "x265 HEVC (software)", "software"⟩

/-- Go `strings.HasSuffix (s, suffix)`: byte-for-byte (here
character-for-character) comparison of the trailing slice, exactly as the Go
runtime implements it. -/
def hasSuffixGo (s suffix : String) : Bool :=
  if suffix.toList.length ≤ s.toList.length then
    s.toList.drop (s.toList.length - suffix.toList.length) == suffix.toList
  else false

/-- Go `strings.Contains (s, substr)`: does `substr` occur byte-for-byte at
some index of `s`?  Modelled as the index search Go's `strings.Index`
performs. -/
def containsGo (s substr : String) : Bool :=
  (List.range (s.toList.length + 1)).any
    (fun i => (s.toList.drop i).take substr.toList.length == substr.toList)

/-- The fixed hardware-backend suffix table of Go `isHardwareEncoder`. -/
def hwSuffixes : List String :=
  ["_videotoolbox", "_nvenc", "_qsv", "_amf", "_vaapi", "_v4l2m2m", "_omx", "_cuvid", "_mf"]

/-- Go `isHardwareEncoder` (src/encoder.go lines 189-207): the loop over
the suffix table with early return. -/
def isHardwareEncoder (name : String) : Bool :=
  hwSuffixes.any (fun suffix => hasSuffixGo name suffix)

/-- Go `EncoderAvailable` (src/encoder.go lines 51-58): `false` when the
listing invocation failed, otherwise a raw substring search of the name in
the captured listing output. -/
def EncoderAvailable (output : Option String) (name : String) : Bool :=
  match output with
  | none => false
  | some out => containsGo out name

/-- Go `BestH264Encoder` (src/encoder.go lines 106-144): the platform
switch with its per-platform availability chain, falling through to the
software encoder.  `goos` models `runtime.GOOS` and `avail` stubs
`EncoderAvailable`. -/
def BestH264Encoder (goos : String) (avail : String → Bool) : Encoder :=
  if goos = "darwin" then
    if avail "h264_videotoolbox" then CommonEncoders.H264VideoToolbox
    else CommonEncoders.Libx264
  else if goos = "linux" then
    if avail "h264_nvenc" then CommonEncoders.H264NVENC
    else if avail "h264_qsv" then CommonEncoders.H264QSV
    else if avail "h264_vaapi" then CommonEncoders.H264VAAPI
    else if avail "h264_amf" then CommonEncoders.H264AMF
    else CommonEncoders.Libx264
  else if goos = "windows" then
    if avail "h264_nvenc" then CommonEncoders.H264NVENC
    else if avail "h264_qsv" then CommonEncoders.H264QSV
    else if avail "h264_amf" then CommonEncoders.H264AMF
    else CommonEncoders.Libx264
  else CommonEncoders.Libx264

/-- Go `BestHEVCEncoder` (src/encoder.go lines 148-180). -/
def BestHEVCEncoder (goos : String) (avail : String → Bool) : Encoder :=
  if goos = "darwin" then
    if avail "hevc_videotoolbox" then CommonEncoders.HEVCVideoToolbox
    else CommonEncoders.Libx265
  else if goos = "linux" then
    if avail "hevc_nvenc" then CommonEncoders.HEVCNVENC
    else if avail "hevc_qsv" then CommonEncoders.HEVCQSV
    else if avail "hevc_vaapi" then CommonEncoders.HEVCVAAPI
    else if avail "hevc_amf" then CommonEncoders.HEVCAMF
    else CommonEncoders.Libx265
  else if goos = "windows" then
    if avail "hevc_nvenc" then CommonEncoders.HEVCNVENC
    else if avail "hevc_qsv" then CommonEncoders.HEVCQSV
    else if avail "hevc_amf" then CommonEncoders.HEVCAMF
    else CommonEncoders.Libx265
  else CommonEncoders.Libx265

/-- Modelled from the spec: the fixed, platform-keyed, ordered H.264
hardware-backend preference list ("GPU-backend-A, then GPU-backend-B, then
generic-backend"); platforms without an entry have an empty list. -/
def h264PreferenceList (goos : String) : List Encoder :=
  if goos = "darwin" then [CommonEncoders.H264VideoToolbox]
  else if goos = "linux" then
    [CommonEncoders.H264NVENC, CommonEncoders.H264QSV,
     CommonEncoders.H264VAAPI, CommonEncoders.H264AMF]
  else if goos = "windows" then
    [CommonEncoders.H264NVENC, CommonEncoders.H264QSV, CommonEncoders.H264AMF]
  else []

/-- Modelled from the spec: the fixed, platform-keyed, ordered HEVC
hardware-backend preference list. -/
def hevcPreferenceList (goos : String) : List Encoder :=
  if goos = "darwin" then [CommonEncoders.HEVCVideoToolbox]
  else if goos = "linux" then
    [CommonEncoders.HEVCNVENC, CommonEncoders.HEVCQSV,
     CommonEncoders.HEVCVAAPI, CommonEncoders.HEVCAMF]
  else if goos = "windows" then
    [CommonEncoders.HEVCNVENC, CommonEncoders.HEVCQSV, CommonEncoders.HEVCAMF]
  else []

/-- Modelled from the spec: "the first entry whose presence is confirmed …
returns the software fallback if none of the preferred backends are
present". -/
def firstAvailableOr (prefs : List Encoder) (avail : String → Bool) (fallback : Encoder) : Encoder :=
  match prefs.find? (fun e => avail e.Name) with
  | some e => e
  | none => fallback

/-! ## Argument groups of `Command.Build`

Named argument groups, used to state ordering and exclusivity properties of
the rendered argument list.  Each group transcribes the flags the
corresponding block of `Command.Build` appends. -/

/-- The global overwrite flag group. -/
def overwriteArgs (c : Command) : List String :=
  if c.overwrite then ["-y"] else []

/-- The per-input flag group: loop, frame rate, format, duration trim,
start-time trim, then the input path. -/
def inputOpts (input : InputSpec) : List String :=
  (if input.loop then ["-loop", "1"] else []) ++
  (if 0 < input.frameRate then ["-framerate", intStr input.frameRate] else []) ++
  (if input.format ≠ "" then ["-f", input.format] else []) ++
  (if 0 < input.duration then ["-t", formatDuration input.duration] else []) ++
  (if 0 < input.startTime then ["-ss", formatDuration input.startTime] else []) ++
  ["-i", input.path]

/-- The filter group: complex filter, then video filter, then audio
filter. -/
def filterArgs (c : Command) : List String :=
  (if c.filterComplex ≠ "" then ["-filter_complex", c.filterComplex] else []) ++
  (if c.filterVideo ≠ "" then ["-vf", c.filterVideo] else []) ++
  (if c.filterAudio ≠ "" then ["-af", c.filterAudio] else [])

/-- The video stream-selection group: disable, or copy, or explicit codec
(mutually exclusive branches of one `if`/`else` chain). -/
def videoSelArgs (c : Command) : List String :=
  if c.noVideo then ["-vn"]
  else if c.copyVideo then ["-c:v", "copy"]
  else if c.videoCodec ≠ "" then ["-c:v", c.videoCodec]
  else []

/-- The video parameter group: geometry, frame rate, quality factor,
preset, pixel format, video bitrate. -/
def videoParamArgs (c : Command) : List String :=
  (if 0 < c.width ∧ 0 < c.height then ["-s", intStr c.width ++ "x" ++ intStr c.height] else []) ++
  (if 0 < c.fps then ["-r", intStr c.fps] else []) ++
  (if 0 < c.crf then ["-crf", intStr c.crf] else []) ++
  (if c.preset ≠ "" then ["-preset", c.preset] else []) ++
  (if c.pixelFormat ≠ "" then ["-pix_fmt", c.pixelFormat] else []) ++
  (if c.videoBitrate ≠ "" then ["-b:v", c.videoBitrate] else [])

/-- The audio stream-selection group: disable, or copy, or explicit codec
(mutually exclusive branches of one `if`/`else` chain). -/
def audioSelArgs (c : Command) : List String :=
  if c.noAudio then ["-an"]
  else if c.copyAudio then ["-c:a", "copy"]
  else if c.audioCodec ≠ "" then ["-c:a", c.audioCodec]
  else []

/-- The audio parameter group: audio bitrate, sample rate, channel
count. -/
def audioParamArgs (c : Command) : List String :=
  (if c.audioBitrate ≠ "" then ["-b:a", c.audioBitrate] else []) ++
  (if 0 < c.audioRate then ["-ar", intStr c.audioRate] else []) ++
  (if 0 < c.channels then ["-ac", intStr c.channels] else [])

/-- The overall output-trim group: duration trim then start-time trim. -/
def trimArgs (c : Command) : List String :=
  (if 0 < c.duration then ["-t", formatDuration c.duration] else []) ++
  (if 0 < c.startTime then ["-ss", formatDuration c.startTime] else [])

/-- The metadata group for a given enumeration order of the metadata
map. -/
def metadataArgs (md : List (String × String)) : List String :=
  (md.map (fun kv => ["-metadata", kv.1 ++ "=" ++ kv.2])).flatten

/-- The output-path group. -/
def outputArgs (c : Command) : List String :=
  if c.outputPath ≠ "" then [c.outputPath] else []

/-- Rewriting helper: a conditional append to an accumulator is the
accumulator followed by a conditional group. -/
theorem append_ite_right {α : Type} (b : Prop) [Decidable b] (a x : List α) :
    (if b then a ++ x else a) = a ++ (if b then x else []) := by
  split <;> simp

/-- Rewriting helper: a three-way conditional append to an accumulator is
the accumulator followed by the three-way conditional group. -/
theorem append_ite_sel {α : Type} (b1 b2 b3 : Prop)
    [Decidable b1] [Decidable b2] [Decidable b3] (a x1 x2 x3 : List α) :
    (if b1 then a ++ x1 else if b2 then a ++ x2 else if b3 then a ++ x3 else a) =
      a ++ (if b1 then x1 else if b2 then x2 else if b3 then x3 else []) := by
  split_ifs <;> simp

/-- Rewriting helper: a fold that appends a group per element is the
accumulator followed by the concatenation of the groups. -/
theorem foldl_append_flatten {α β : Type} (g : β → List α) (f : List α → β → List α)
    (hf : ∀ a b, f a b = a ++ g b) :
    ∀ (l : List β) (a : List α), l.foldl f a = a ++ (l.map g).flatten := by
  intro l
  induction l with
  | nil => intro a; simp
  | cons h t ih => intro a; simp [hf, ih, List.append_assoc]

/-- The overwrite block appends exactly the overwrite group. -/
theorem overwriteStep_eq (c : Command) (a : List String) :
    overwriteStep c a = a ++ overwriteArgs c := by
  simp only [overwriteStep, overwriteArgs, append_ite_right]

/-- One step of the input loop appends exactly the input's flag group. -/
theorem inputStep_eq (a : List String) (input : InputSpec) :
    inputStep a input = a ++ inputOpts input := by
  simp only [inputStep, inputOpts]
  split_ifs <;> simp

/-- The filter block appends exactly the filter group. -/
theorem filterStep_eq (c : Command) (a : List String) :
    filterStep c a = a ++ filterArgs c := by
  simp only [filterStep, filterArgs]
  split_ifs <;> simp

/-- The video selection chain appends exactly the video selection group. -/
theorem videoSelStep_eq (c : Command) (a : List String) :
    videoSelStep c a = a ++ videoSelArgs c := by
  simp only [videoSelStep, videoSelArgs]
  split_ifs <;> simp

/-- The video parameter block appends exactly the video parameter group. -/
theorem videoParamStep_eq (c : Command) (a : List String) :
    videoParamStep c a = a ++ videoParamArgs c := by
  simp only [videoParamStep, videoParamArgs]
  split_ifs <;> simp

/-- The audio selection chain appends exactly the audio selection group. -/
theorem audioSelStep_eq (c : Command) (a : List String) :
    audioSelStep c a = a ++ audioSelArgs c := by
  simp only [audioSelStep, audioSelArgs]
  split_ifs <;> simp

/-- The audio parameter block appends exactly the audio parameter group. -/
theorem audioParamStep_eq (c : Command) (a : List String) :
    audioParamStep c a = a ++ audioParamArgs c := by
  simp only [audioParamStep, audioParamArgs]
  split_ifs <;> simp

/-- The output trim block appends exactly the trim group. -/
theorem trimStep_eq (c : Command) (a : List String) :
    trimStep c a = a ++ trimArgs c := by
  simp only [trimStep, trimArgs]
  split_ifs <;> simp

/-- The metadata loop appends exactly the metadata group of its
enumeration order. -/
theorem metadataStep_eq (md : List (String × String)) (a : List String) :
    metadataStep md a = a ++ metadataArgs md :=
  foldl_append_flatten (fun kv : String × String => ["-metadata", kv.1 ++ "=" ++ kv.2]) _
    (fun _ _ => rfl) md a

/-- The output-path block appends exactly the output group. -/
theorem outputStep_eq (c : Command) (a : List String) :
    outputStep c a = a ++ outputArgs c := by
  simp only [outputStep, outputArgs, append_ite_right]

/-- `Command.Build` decomposes into the named argument groups, in the fixed
order the Go code appends them. -/
theorem build_eq_segments (c : Command) (md : List (String × String)) :
    c.Build md =
      overwriteArgs c ++ (c.inputs.map inputOpts).flatten ++ filterArgs c ++
      videoSelArgs c ++ videoParamArgs c ++ audioSelArgs c ++ audioParamArgs c ++
      trimArgs c ++ metadataArgs md ++ c.extraArgs ++ outputArgs c := by
  have hin : ∀ (l : List InputSpec) (a : List String),
      l.foldl inputStep a = a ++ (l.map inputOpts).flatten :=
    foldl_append_flatten inputOpts inputStep inputStep_eq
  simp only [Command.Build, overwriteStep_eq, hin, filterStep_eq, videoSelStep_eq,
    videoParamStep_eq, audioSelStep_eq, audioParamStep_eq, trimStep_eq, metadataStep_eq,
    outputStep_eq, List.append_assoc, List.nil_append]

/-! ## Stream-loop lemmas for the probe reduction -/

/-- `applyStream` never changes the duration field. -/
theorem applyStream_Duration (info : MediaInfo) (s : ffprobeStream) :
    (applyStream info s).Duration = info.Duration := by
  unfold applyStream
  split_ifs <;> first | rfl | (cases parseInt? s.SampleRate <;> rfl)

/-- The stream loop never changes the duration field. -/
theorem foldl_applyStream_Duration (l : List ffprobeStream) :
    ∀ info : MediaInfo, (l.foldl applyStream info).Duration = info.Duration := by
  induction l with
  | nil => intro info; rfl
  | cons h t ih => intro info; rw [List.foldl_cons, ih, applyStream_Duration]

/-- A non-video stream leaves the video fields unchanged. -/
theorem applyStream_video_of_ne (info : MediaInfo) (s : ffprobeStream)
    (h : s.CodecType ≠ "video") :
    (applyStream info s).VideoCodec = info.VideoCodec ∧
    (applyStream info s).Width = info.Width ∧
    (applyStream info s).Height = info.Height ∧
    (applyStream info s).HasVideo = info.HasVideo := by
  unfold applyStream
  rw [if_neg h]
  split_ifs <;> first | exact ⟨rfl, rfl, rfl, rfl⟩ |
    (cases parseInt? s.SampleRate <;> exact ⟨rfl, rfl, rfl, rfl⟩)

/-- A non-audio stream leaves the audio fields unchanged. -/
theorem applyStream_audio_of_ne (info : MediaInfo) (s : ffprobeStream)
    (h : s.CodecType ≠ "audio") :
    (applyStream info s).AudioCodec = info.AudioCodec ∧
    (applyStream info s).Channels = info.Channels ∧
    (applyStream info s).SampleRate = info.SampleRate ∧
    (applyStream info s).HasAudio = info.HasAudio := by
  unfold applyStream
  split_ifs <;> exact ⟨rfl, rfl, rfl, rfl⟩

/-- A tail of the stream list with no video stream preserves the video
fields. -/
theorem foldl_video_of_no_video (l : List ffprobeStream) :
    ∀ info : MediaInfo, (∀ s ∈ l, s.CodecType ≠ "video") →
      (l.foldl applyStream info).VideoCodec = info.VideoCodec ∧
      (l.foldl applyStream info).Width = info.Width ∧
      (l.foldl applyStream info).Height = info.Height ∧
      (l.foldl applyStream info).HasVideo = info.HasVideo := by
  induction l with
  | nil => intro info _; exact ⟨rfl, rfl, rfl, rfl⟩
  | cons h t ih =>
    intro info hl
    have hh : h.CodecType ≠ "video" := hl h (List.mem_cons_self h t)
    have ht : ∀ s ∈ t, s.CodecType ≠ "video" := fun s hs => hl s (List.mem_cons_of_mem h hs)
    have h1 := applyStream_video_of_ne info h hh
    have h2 := ih (applyStream info h) ht
    rw [List.foldl_cons]
    exact ⟨h2.1.trans h1.1, h2.2.1.trans h1.2.1, h2.2.2.1.trans h1.2.2.1,
      h2.2.2.2.trans h1.2.2.2⟩

/-- A tail of the stream list with no audio stream preserves the audio
fields. -/
theorem foldl_audio_of_no_audio (l : List ffprobeStream) :
    ∀ info : MediaInfo, (∀ s ∈ l, s.CodecType ≠ "audio") →
      (l.foldl applyStream info).AudioCodec = info.AudioCodec ∧
      (l.foldl applyStream info).Channels = info.Channels ∧
      (l.foldl applyStream info).SampleRate = info.SampleRate ∧
      (l.foldl applyStream info).HasAudio = info.HasAudio := by
  induction l with
  | nil => intro info _; exact ⟨rfl, rfl, rfl, rfl⟩
  | cons h t ih =>
    intro info hl
    have hh : h.CodecType ≠ "audio" := hl h (List.mem_cons_self h t)
    have ht : ∀ s ∈ t, s.CodecType ≠ "audio" := fun s hs => hl s (List.mem_cons_of_mem h hs)
    have h1 := applyStream_audio_of_ne info h hh
    have h2 := ih (applyStream info h) ht
    rw [List.foldl_cons]
    exact ⟨h2.1.trans h1.1, h2.2.1.trans h1.2.1, h2.2.2.1.trans h1.2.2.1,
      h2.2.2.2.trans h1.2.2.2⟩

/-- Applying a video stream sets the video fields to that stream's
values. -/
theorem applyStream_video_sets (info : MediaInfo) (v : ffprobeStream)
    (h : v.CodecType = "video") :
    (applyStream info v).VideoCodec = v.CodecName ∧
    (applyStream info v).Width = v.Width ∧
    (applyStream info v).Height = v.Height ∧
    (applyStream info v).HasVideo = true := by
  unfold applyStream
  rw [if_pos h]
  exact ⟨rfl, rfl, rfl, rfl⟩

/-- Applying an audio stream sets the audio fields to that stream's values
(the sample rate when it parses). -/
theorem applyStream_audio_sets (info : MediaInfo) (a : ffprobeStream)
    (h : a.CodecType = "audio") :
    ((applyStream info a).AudioCodec = a.CodecName ∧
     (applyStream info a).Channels = a.Channels ∧
     (applyStream info a).HasAudio = true) ∧
    (∀ sr : Int, a.SampleRate ≠ "" → parseInt? a.SampleRate = some sr →
      (applyStream info a).SampleRate = sr) := by
  have hv : a.CodecType ≠ "video" := by
    rw [h]; intro hc; exact absurd hc (by decide)
  unfold applyStream
  rw [if_neg hv, if_pos h]
  constructor
  · split_ifs with hs
    · cases hp : parseInt? a.SampleRate <;> exact ⟨rfl, rfl, rfl⟩
    · exact ⟨rfl, rfl, rfl⟩
  · intro sr hne hp
    rw [if_pos hne, hp]

/-- The probe reduction as a fold starting from the format-derived record. -/
theorem probeReduce_foldl (path : String) (output : ffprobeOutput) :
    ∃ info0 : MediaInfo, probeReduce path output = output.Streams.foldl applyStream info0 ∧
      info0.VideoCodec = "" ∧ info0.HasVideo = false := by
  unfold probeReduce
  split_ifs <;>
    first
    | exact ⟨_, rfl, rfl, rfl⟩
    | (cases hd : parseFloat? output.Format.Duration <;>
        cases hb : parseInt? output.Format.BitRate <;>
        first
        | exact ⟨_, by rw [hd, hb], rfl, rfl⟩
        | exact ⟨_, by rw [hd], rfl, rfl⟩
        | exact ⟨_, by rw [hb], rfl, rfl⟩
        | exact ⟨_, rfl, rfl, rfl⟩)

/-! ## Claim C1 -/

/-- A report with two video streams: `h264` 1920x1080 first, `vp9` 640x480
second. -/
def reportTwoVideo : ffprobeOutput :=
  ⟨⟨"f.mp4", "mp4", "", ""⟩,
   [⟨"video", "h264", 1920, 1080, "", 0⟩, ⟨"video", "vp9", 640, 480, "", 0⟩]⟩

/-- Claim C1, counterexample: on a report whose streams array contains two
video streams, the full-probe reduction takes the video codec, width and
height from the second (last) stream, not from the first as the claim
states — later streams of an already-set type are not ignored. -/
theorem probe_first_stream_counterexample :
    (probeReduce "f.mp4" reportTwoVideo).VideoCodec = "vp9" ∧
    (probeReduce "f.mp4" reportTwoVideo).Width = 640 ∧
    (probeReduce "f.mp4" reportTwoVideo).Height = 480 ∧
    ¬ ((probeReduce "f.mp4" reportTwoVideo).VideoCodec = "h264") ∧
    ¬ ((probeReduce "f.mp4" reportTwoVideo).Width = 1920) := by
  decide

/-- Claim C1, amended: for every well-formed prober report, the full-probe
reduction sets the video fields (codec name, width, height) from the LAST
stream of type `"video"` in the list — every video stream overwrites the
fields, so with several video streams the last one wins — and the has-video
flag from the presence of any video stream; symmetrically the audio fields
(codec name, channels, has-audio flag) come from the LAST stream of type
`"audio"`, and the sample-rate field from that stream when its sample-rate
string is nonempty and parses. -/
theorem probe_last_stream_wins :
    (∀ (path : String) (fmt : ffprobeFormat) (l₁ l₂ : List ffprobeStream) (v : ffprobeStream),
      v.CodecType = "video" → (∀ s ∈ l₂, s.CodecType ≠ "video") →
      (probeReduce path ⟨fmt, l₁ ++ v :: l₂⟩).VideoCodec = v.CodecName ∧
      (probeReduce path ⟨fmt, l₁ ++ v :: l₂⟩).Width = v.Width ∧
      (probeReduce path ⟨fmt, l₁ ++ v :: l₂⟩).Height = v.Height ∧
      (probeReduce path ⟨fmt, l₁ ++ v :: l₂⟩).HasVideo = true) ∧
    (∀ (path : String) (fmt : ffprobeFormat) (l₁ l₂ : List ffprobeStream) (a : ffprobeStream),
      a.CodecType = "audio" → (∀ s ∈ l₂, s.CodecType ≠ "audio") →
      (probeReduce path ⟨fmt, l₁ ++ a :: l₂⟩).AudioCodec = a.CodecName ∧
      (probeReduce path ⟨fmt, l₁ ++ a :: l₂⟩).Channels = a.Channels ∧
      (probeReduce path ⟨fmt, l₁ ++ a :: l₂⟩).HasAudio = true ∧
      (∀ sr : Int, a.SampleRate ≠ "" → parseInt? a.SampleRate = some sr →
        (probeReduce path ⟨fmt, l₁ ++ a :: l₂⟩).SampleRate = sr)) := by
  constructor
  · intro path fmt l₁ l₂ v hv h2
    obtain ⟨info0, heq, -, -⟩ := probeReduce_foldl path ⟨fmt, l₁ ++ v :: l₂⟩
    have hsplit : (ffprobeOutput.mk fmt (l₁ ++ v :: l₂)).Streams.foldl applyStream info0
        = l₂.foldl applyStream (applyStream (l₁.foldl applyStream info0) v) := by
      show (l₁ ++ v :: l₂).foldl applyStream info0 = _
      rw [List.foldl_append, List.foldl_cons]
    rw [heq, hsplit]
    have hpres := foldl_video_of_no_video l₂ (applyStream (l₁.foldl applyStream info0) v) h2
    have hset := applyStream_video_sets (l₁.foldl applyStream info0) v hv
    exact ⟨hpres.1.trans hset.1, hpres.2.1.trans hset.2.1, hpres.2.2.1.trans hset.2.2.1,
      hpres.2.2.2.trans hset.2.2.2⟩
  · intro path fmt l₁ l₂ a ha h2
    obtain ⟨info0, heq, -, -⟩ := probeReduce_foldl path ⟨fmt, l₁ ++ a :: l₂⟩
    have hsplit : (ffprobeOutput.mk fmt (l₁ ++ a :: l₂)).Streams.foldl applyStream info0
        = l₂.foldl applyStream (applyStream (l₁.foldl applyStream info0) a) := by
      show (l₁ ++ a :: l₂).foldl applyStream info0 = _
      rw [List.foldl_append, List.foldl_cons]
    rw [heq, hsplit]
    have hpres := foldl_audio_of_no_audio l₂ (applyStream (l₁.foldl applyStream info0) a) h2
    have hset := applyStream_audio_sets (l₁.foldl applyStream info0) a ha
    refine ⟨hpres.1.trans hset.1.1, hpres.2.1.trans hset.1.2.1, hpres.2.2.2.trans hset.1.2.2, ?_⟩
    intro sr hne hp
    exact hpres.2.2.1.trans (hset.2 sr hne hp)

/-- Witness for the amended claim C1: concrete two-video and two-audio
reports, with the hypotheses discharged by computation. -/
theorem probe_last_stream_wins_witness :
    ((probeReduce "f.mp4" ⟨⟨"f.mp4", "mp4", "", ""⟩,
        [⟨"video", "h264", 1920, 1080, "", 0⟩] ++ ⟨"video", "vp9", 640, 480, "", 0⟩ :: []⟩).VideoCodec
      = "vp9") ∧
    ((probeReduce "f.mp4" ⟨⟨"f.mp4", "mp4", "", ""⟩,
        [⟨"audio", "aac", 0, 0, "44100", 2⟩] ++ ⟨"audio", "opus", 0, 0, "48000", 6⟩ :: []⟩).AudioCodec
      = "opus") ∧
    ((probeReduce "f.mp4" ⟨⟨"f.mp4", "mp4", "", ""⟩,
        [⟨"audio", "aac", 0, 0, "44100", 2⟩] ++ ⟨"audio", "opus", 0, 0, "48000", 6⟩ :: []⟩).SampleRate
      = 48000) := by
  have hv := (probe_last_stream_wins.1 "f.mp4" ⟨"f.mp4", "mp4", "", ""⟩
    [⟨"video", "h264", 1920, 1080, "", 0⟩] [] ⟨"video", "vp9", 640, 480, "", 0⟩
    (by decide) (by decide))
  have ha := (probe_last_stream_wins.2 "f.mp4" ⟨"f.mp4", "mp4", "", ""⟩
    [⟨"audio", "aac", 0, 0, "44100", 2⟩] [] ⟨"audio", "opus", 0, 0, "48000", 6⟩
    (by decide) (by decide))
  exact ⟨hv.1, ha.1, ha.2.2.2 48000 (by decide) (by decide)⟩

/-! ## Claim C5 -/

/-- A report whose format object carries the unparsable duration string
`"N/A"`. -/
def reportBadDuration : ffprobeOutput :=
  ⟨⟨"f.mp4", "mp4", "N/A", ""⟩, [⟨"video", "h264", 1920, 1080, "", 0⟩]⟩

/-- A report whose format object carries an empty duration string. -/
def reportEmptyDuration : ffprobeOutput :=
  ⟨⟨"f.mp4", "mp4", "", ""⟩, [⟨"video", "h264", 1920, 1080, "", 0⟩]⟩

/-- Claim C5: when the prober reports an empty or `"N/A"` duration value,
the duration-only query fails with the value-unavailable error returning
zero duration together with the error; the full-probe reduction given a
report with an empty or unparsable duration string leaves the result's
duration field at its zero value (and, being a total function of the
decoded report, succeeds). -/
theorem duration_unavailable_probe_zero (stdout path : String) (output : ffprobeOutput) :
    ((trimSpace stdout = "" ∨ trimSpace stdout = "N/A") →
      DurationFromOutput stdout = (0, some DurationError.valueUnavailable)) ∧
    ((output.Format.Duration = "" ∨ parseFloat? output.Format.Duration = none) →
      (probeReduce path output).Duration = 0) := by
  constructor
  · intro h
    unfold DurationFromOutput
    rcases h with h | h <;> simp [h]
  · intro h
    simp only [probeReduce, foldl_applyStream_Duration]
    by_cases h1 : output.Format.Duration ≠ ""
    · have hn : parseFloat? output.Format.Duration = none := by
        rcases h with h | h
        · exact absurd h (by simpa using h1)
        · exact h
      rw [if_pos h1, hn]
      split_ifs <;> first | rfl | (cases parseInt? output.Format.BitRate <;> rfl)
    · rw [if_neg h1]
      split_ifs <;> first | rfl | (cases parseInt? output.Format.BitRate <;> rfl)

/-- Witness for claim C5: the concrete outputs `" N/A \n"` and `""` for the
duration-only query, and concrete reports with `"N/A"` and empty duration
strings for the full probe. -/
theorem duration_unavailable_probe_zero_witness :
    DurationFromOutput " N/A \n" = (0, some DurationError.valueUnavailable) ∧
    DurationFromOutput "" = (0, some DurationError.valueUnavailable) ∧
    (probeReduce "f.mp4" reportBadDuration).Duration = 0 ∧
    (probeReduce "f.mp4" reportEmptyDuration).Duration = 0 :=
  ⟨(duration_unavailable_probe_zero " N/A \n" "f.mp4" reportBadDuration).1 (Or.inr (by decide)),
   (duration_unavailable_probe_zero "" "f.mp4" reportBadDuration).1 (Or.inl (by decide)),
   (duration_unavailable_probe_zero "" "f.mp4" reportBadDuration).2 (Or.inr (by decide)),
   (duration_unavailable_probe_zero "" "f.mp4" reportEmptyDuration).2 (Or.inl (by decide))⟩

/-! ## Claim C2 -/

/-- Claim C2: `VideoCodec` sets the video codec and clears the copy-video
flag, `CopyVideo` sets the flag and clears the codec (symmetrically for
audio), and the rendered video (resp. audio) stream-selection group of
`Build` — the single `if`/`else` chain emitting `-vn` / `-c:v copy` /
`-c:v <codec>` — never contains both a copy selector and an explicit-codec
selector for the same stream in one rendered argument list. -/
theorem codec_copy_mutually_exclusive (c : Command) (codec : String)
    (md : List (String × String)) :
    ((c.VideoCodec codec).videoCodec = codec ∧ (c.VideoCodec codec).copyVideo = false) ∧
    ((c.AudioCodec codec).audioCodec = codec ∧ (c.AudioCodec codec).copyAudio = false) ∧
    (c.CopyVideo.copyVideo = true ∧ c.CopyVideo.videoCodec = "") ∧
    (c.CopyAudio.copyAudio = true ∧ c.CopyAudio.audioCodec = "") ∧
    (c.Build md = overwriteArgs c ++ (c.inputs.map inputOpts).flatten ++ filterArgs c ++
      videoSelArgs c ++ videoParamArgs c ++ audioSelArgs c ++ audioParamArgs c ++
      trimArgs c ++ metadataArgs md ++ c.extraArgs ++ outputArgs c) ∧
    (¬ (["-c:v", "copy"] <:+: videoSelArgs c ∧
        ∃ x, x ≠ "copy" ∧ ["-c:v", x] <:+: videoSelArgs c)) ∧
    (¬ (["-c:a", "copy"] <:+: audioSelArgs c ∧
        ∃ x, x ≠ "copy" ∧ ["-c:a", x] <:+: audioSelArgs c)) := by
  refine ⟨⟨rfl, rfl⟩, ⟨rfl, rfl⟩, ⟨rfl, rfl⟩, ⟨rfl, rfl⟩, build_eq_segments c md, ?_, ?_⟩
  · rintro ⟨hcopy, x, hx, hsel⟩
    unfold videoSelArgs at hcopy hsel
    split_ifs at hcopy hsel
    · have := hcopy.sublist.length_le
      simp at this
    · have h5 := hsel.sublist.eq_of_length (by simp)
      simp only [List.cons.injEq, and_true, true_and] at h5
      exact hx h5
    · have h4 := hcopy.sublist.eq_of_length (by simp)
      have h5 := hsel.sublist.eq_of_length (by simp)
      simp only [List.cons.injEq, and_true, true_and] at h4 h5
      exact hx (h5.trans h4.symm)
    · have := hcopy.sublist.length_le
      simp at this
  · rintro ⟨hcopy, x, hx, hsel⟩
    unfold audioSelArgs at hcopy hsel
    split_ifs at hcopy hsel
    · have := hcopy.sublist.length_le
      simp at this
    · have h5 := hsel.sublist.eq_of_length (by simp)
      simp only [List.cons.injEq, and_true, true_and] at h5
      exact hx h5
    · have h4 := hcopy.sublist.eq_of_length (by simp)
      have h5 := hsel.sublist.eq_of_length (by simp)
      simp only [List.cons.injEq, and_true, true_and] at h4 h5
      exact hx (h5.trans h4.symm)
    · have := hcopy.sublist.length_le
      simp at this

/-- Witness for claim C2: the builder state reached by `CopyVideo` followed
by `VideoCodec "libx264"`. -/
theorem codec_copy_mutually_exclusive_witness :
    ((New.CopyVideo).VideoCodec "libx264").videoCodec = "libx264" ∧
    ((New.CopyVideo).VideoCodec "libx264").copyVideo = false ∧
    ((New.VideoCodec "libx264").CopyVideo).videoCodec = "" ∧
    ¬ (["-c:v", "copy"] <:+: videoSelArgs ((New.CopyVideo).VideoCodec "libx264") ∧
       ∃ x, x ≠ "copy" ∧ ["-c:v", x] <:+: videoSelArgs ((New.CopyVideo).VideoCodec "libx264")) :=
  ⟨(codec_copy_mutually_exclusive New.CopyVideo "libx264" []).1.1,
   (codec_copy_mutually_exclusive New.CopyVideo "libx264" []).1.2,
   (codec_copy_mutually_exclusive (New.VideoCodec "libx264") "x" []).2.2.1.2,
   (codec_copy_mutually_exclusive ((New.CopyVideo).VideoCodec "libx264") "x" []).2.2.2.2.2.1⟩

/-! ## Claim C4 -/

/-- Claim C4: `Build` emits its argument groups in exactly the fixed
order: overwrite flag; per-input flags followed by `-i path` in
input-addition order; `-filter_complex`; `-vf`; `-af`; video
disable-or-codec-or-copy selection; `-s`; `-r`; `-crf`; `-preset`;
`-pix_fmt`; `-b:v`; audio disable-or-codec-or-copy selection; `-b:a`;
`-ar`; `-ac`; overall `-t`; overall `-ss`; `-metadata` pairs; passthrough
arguments; output path last (see the group definitions for the exact
flags). -/
theorem build_fixed_order (c : Command) (md : List (String × String)) :
    c.Build md =
      overwriteArgs c ++ (c.inputs.map inputOpts).flatten ++ filterArgs c ++
      videoSelArgs c ++ videoParamArgs c ++ audioSelArgs c ++ audioParamArgs c ++
      trimArgs c ++ metadataArgs md ++ c.extraArgs ++ outputArgs c :=
  build_eq_segments c md

/-! ## Claim C3 -/

/-- A command with a two-entry metadata map. -/
def cmdTwoMeta : Command :=
  (((New.Input "in.mp4").Metadata "artist" "A").Metadata "title" "B").Output "out.mp4"

/-- Claim C3, counterexample: with two metadata entries, two valid
enumeration orders of the same metadata map — the Go runtime randomizes
the `range` order over a map, so two `Build` calls may observe either —
yield different argument sequences. -/
theorem build_two_calls_counterexample :
    [("artist", "A"), ("title", "B")].Perm cmdTwoMeta.metadata ∧
    [("title", "B"), ("artist", "A")].Perm cmdTwoMeta.metadata ∧
    cmdTwoMeta.Build [("artist", "A"), ("title", "B")] ≠
      cmdTwoMeta.Build [("title", "B"), ("artist", "A")] := by
  decide

/-- Claim C3, amended: rendering is a pure function of the specification
state and the metadata enumeration order — it never mutates the
specification, two calls observing the same enumeration order are equal
(immediate since `Build` is a function), two calls observing any two orders
of the same map agree up to permutation of the emitted argument list, and
when the metadata map holds at most one entry every pair of calls yields
identical argument sequences. -/
theorem build_pure_up_to_metadata_order (c : Command) (md₁ md₂ : List (String × String))
    (h : md₁.Perm md₂) :
    (c.Build md₁).Perm (c.Build md₂) ∧ (md₁.length ≤ 1 → c.Build md₁ = c.Build md₂) := by
  constructor
  · rw [build_eq_segments, build_eq_segments]
    refine List.Perm.append_right _ ?_
    refine List.Perm.append_right _ ?_
    exact List.Perm.append_left _
      ((h.map (fun kv : String × String => ["-metadata", kv.1 ++ "=" ++ kv.2])).flatten)
  · intro hlen
    have heq : md₁ = md₂ := by
      cases md₁ with
      | nil => exact (List.Perm.eq_nil h.symm).symm
      | cons x t =>
        cases t with
        | nil =>
          have hl := h.length_eq
          cases md₂ with
          | nil => simp at hl
          | cons y t2 =>
            cases t2 with
            | nil =>
              have hx : x = y := List.eq_of_mem_singleton (h.mem_iff.mp (List.mem_singleton_self x))
              rw [hx]
            | cons z t3 => simp at hl
        | cons y t2 => simp at hlen
    rw [heq]

/-- Witness for the amended claim C3: the two-entry command above, and a
one-entry enumeration where the orders coincide. -/
theorem build_pure_up_to_metadata_order_witness :
    (cmdTwoMeta.Build [("artist", "A"), ("title", "B")]).Perm
      (cmdTwoMeta.Build [("title", "B"), ("artist", "A")]) ∧
    cmdTwoMeta.Build [("artist", "A")] = cmdTwoMeta.Build [("artist", "A")] :=
  ⟨(build_pure_up_to_metadata_order cmdTwoMeta _ _ (by decide)).1,
   (build_pure_up_to_metadata_order cmdTwoMeta [("artist", "A")] [("artist", "A")]
     (List.Perm.refl _)).2 (by decide)⟩

/-! ## Claim C7 -/

/-- Go `strings.HasSuffix` decides the list-suffix relation. -/
theorem hasSuffixGo_iff (s suffix : String) :
    hasSuffixGo s suffix = true ↔ suffix.toList <:+ s.toList := by
  unfold hasSuffixGo
  constructor
  · intro h
    split_ifs at h with hle
    · have he : s.toList.drop (s.toList.length - suffix.toList.length) = suffix.toList := by
        simpa using h
      exact he ▸ List.drop_suffix _ _
  · rintro ⟨t, ht⟩
    have hle : suffix.toList.length ≤ s.toList.length := by
      rw [← ht]; simp
    rw [if_pos hle, ← ht]
    simp

/-- Claim C7: the classification function returns hardware exactly when the
name ends in one of the nine fixed hardware-backend suffixes; in particular
`libx264`, `libx265` and `mpeg4` classify as software. -/
theorem isHardwareEncoder_suffix_iff (name : String) :
    (isHardwareEncoder name = true ↔
      ∃ suffix ∈ ["_videotoolbox", "_nvenc", "_qsv", "_amf", "_vaapi",
                  "_v4l2m2m", "_omx", "_cuvid", "_mf"],
        suffix.toList <:+ name.toList) ∧
    isHardwareEncoder "libx264" = false ∧
    isHardwareEncoder "libx265" = false ∧
    isHardwareEncoder "mpeg4" = false := by
  refine ⟨?_, by decide, by decide, by decide⟩
  unfold isHardwareEncoder hwSuffixes
  rw [List.any_eq_true]
  constructor
  · rintro ⟨suffix, hmem, hsuf⟩
    exact ⟨suffix, hmem, (hasSuffixGo_iff name suffix).mp hsuf⟩
  · rintro ⟨suffix, hmem, hsuf⟩
    exact ⟨suffix, hmem, (hasSuffixGo_iff name suffix).mpr hsuf⟩

/-- Witness for claim C7: the suffix characterization evaluated at a
hardware name and at the three software names. -/
theorem isHardwareEncoder_suffix_iff_witness :
    (∃ suffix ∈ ["_videotoolbox", "_nvenc", "_qsv", "_amf", "_vaapi",
                 "_v4l2m2m", "_omx", "_cuvid", "_mf"],
       suffix.toList <:+ "h264_nvenc".toList) ∧
    isHardwareEncoder "libx264" = false ∧
    isHardwareEncoder "libx265" = false ∧
    isHardwareEncoder "mpeg4" = false :=
  ⟨(isHardwareEncoder_suffix_iff "h264_nvenc").1.mp (by decide),
   (isHardwareEncoder_suffix_iff "libx264").2.1,
   (isHardwareEncoder_suffix_iff "libx265").2.2.1,
   (isHardwareEncoder_suffix_iff "mpeg4").2.2.2⟩

/-! ## Claim C10 -/

/-- Go `strings.Contains` decides the list-infix (raw substring)
relation. -/
theorem containsGo_iff (s substr : String) :
    containsGo s substr = true ↔ substr.toList <:+: s.toList := by
  unfold containsGo
  rw [List.any_eq_true]
  constructor
  · rintro ⟨i, -, hi⟩
    have he : (s.toList.drop i).take substr.toList.length = substr.toList := by
      simpa using hi
    have h1 : substr.toList <+: s.toList.drop i := he ▸ List.take_prefix _ _
    exact h1.isInfix.trans (List.drop_suffix i s.toList).isInfix
  · rintro ⟨t, u, ht⟩
    refine ⟨t.length, ?_, ?_⟩
    · rw [List.mem_range, ← ht]
      simp
      omega
    · rw [← ht]
      simp [List.drop_left, List.take_left]

/-- Claim C10: `EncoderAvailable` returns true exactly when the queried
name occurs as a raw substring anywhere in the encoder-listing output, and
false when the listing invocation fails; a name occurring only inside a
longer encoder name, or only inside a description column, still reports as
available. -/
theorem encoderAvailable_substring (out name : String) :
    (EncoderAvailable (some out) name = true ↔ name.toList <:+: out.toList) ∧
    EncoderAvailable none name = false ∧
    EncoderAvailable (some " V..... h264_videotoolbox   Apple VideoToolbox H.264") "videotoolbox"
      = true ∧
    EncoderAvailable (some " V..... libx264   H.264 (codec h264)") "h264" = true :=
  ⟨containsGo_iff out name, rfl, by decide, by decide⟩

/-- Witness for claim C10: the substring characterization evaluated on a
listing line where the name is not an exact encoder name. -/
theorem encoderAvailable_substring_witness :
    "videotoolbox".toList <:+: " V..... h264_videotoolbox   Apple VideoToolbox H.264".toList ∧
    EncoderAvailable none "libx264" = false :=
  ⟨(encoderAvailable_substring " V..... h264_videotoolbox   Apple VideoToolbox H.264"
      "videotoolbox").1.mp (by decide),
   (encoderAvailable_substring "" "libx264").2.1⟩

/-! ## Claim C6 -/

/-- `firstAvailableOr` on a nonempty preference list checks its head
first. -/
theorem firstAvailableOr_cons (e : Encoder) (rest : List Encoder)
    (avail : String → Bool) (fallback : Encoder) :
    firstAvailableOr (e :: rest) avail fallback =
      if avail e.Name then e else firstAvailableOr rest avail fallback := by
  unfold firstAvailableOr
  cases h : avail e.Name <;> simp [List.find?, h]

/-- `firstAvailableOr` on an empty preference list is the fallback. -/
theorem firstAvailableOr_nil (avail : String → Bool) (fallback : Encoder) :
    firstAvailableOr [] avail fallback = fallback := rfl

/-- Claim C6: for every platform and every assignment of the
encoder-presence stub, `BestH264Encoder` (resp. `BestHEVCEncoder`) returns
the first encoder of the platform's fixed ordered preference list whose
presence check succeeds, and the software fallback `libx264` (resp.
`libx265`) when none of the platform's preferred hardware backends are
present. -/
theorem bestEncoder_first_available (goos : String) (avail : String → Bool) :
    BestH264Encoder goos avail
      = firstAvailableOr (h264PreferenceList goos) avail CommonEncoders.Libx264 ∧
    BestHEVCEncoder goos avail
      = firstAvailableOr (hevcPreferenceList goos) avail CommonEncoders.Libx265 := by
  by_cases hd : goos = "darwin"
  · constructor
    · cases h1 : avail "h264_videotoolbox" <;>
        simp [BestH264Encoder, h264PreferenceList, hd, firstAvailableOr_cons,
          firstAvailableOr_nil, CommonEncoders.H264VideoToolbox, h1]
    · cases h1 : avail "hevc_videotoolbox" <;>
        simp [BestHEVCEncoder, hevcPreferenceList, hd, firstAvailableOr_cons,
          firstAvailableOr_nil, CommonEncoders.HEVCVideoToolbox, h1]
  · by_cases hl : goos = "linux"
    · constructor
      · cases h1 : avail "h264_nvenc" <;> cases h2 : avail "h264_qsv" <;>
          cases h3 : avail "h264_vaapi" <;> cases h4 : avail "h264_amf" <;>
          simp [BestH264Encoder, h264PreferenceList, hd, hl, firstAvailableOr_cons,
            firstAvailableOr_nil, CommonEncoders.H264NVENC, CommonEncoders.H264QSV,
            CommonEncoders.H264VAAPI, CommonEncoders.H264AMF, h1, h2, h3, h4]
      · cases h1 : avail "hevc_nvenc" <;> cases h2 : avail "hevc_qsv" <;>
          cases h3 : avail "hevc_vaapi" <;> cases h4 : avail "hevc_amf" <;>
          simp [BestHEVCEncoder, hevcPreferenceList, hd, hl, firstAvailableOr_cons,
            firstAvailableOr_nil, CommonEncoders.HEVCNVENC, CommonEncoders.HEVCQSV,
            CommonEncoders.HEVCVAAPI, CommonEncoders.HEVCAMF, h1, h2, h3, h4]
    · by_cases hw : goos = "windows"
      · constructor
        · cases h1 : avail "h264_nvenc" <;> cases h2 : avail "h264_qsv" <;>
            cases h4 : avail "h264_amf" <;>
            simp [BestH264Encoder, h264PreferenceList, hd, hl, hw, firstAvailableOr_cons,
              firstAvailableOr_nil, CommonEncoders.H264NVENC, CommonEncoders.H264QSV,
              CommonEncoders.H264AMF, h1, h2, h4]
        · cases h1 : avail "hevc_nvenc" <;> cases h2 : avail "hevc_qsv" <;>
            cases h4 : avail "hevc_amf" <;>
            simp [BestHEVCEncoder, hevcPreferenceList, hd, hl, hw, firstAvailableOr_cons,
              firstAvailableOr_nil, CommonEncoders.HEVCNVENC, CommonEncoders.HEVCQSV,
              CommonEncoders.HEVCAMF, h1, h2, h4]
      · constructor
        · simp [BestH264Encoder, h264PreferenceList, hd, hl, hw, firstAvailableOr_nil]
        · simp [BestHEVCEncoder, hevcPreferenceList, hd, hl, hw, firstAvailableOr_nil]

/-! ## Digit-string lemmas for `formatDuration` (claim C8) -/

/-- A digit character produced by `digitChar` is a decimal digit. -/
theorem digitChar_isDigit (d : Nat) (h : d < 10) : (digitChar d).isDigit = true := by
  interval_cases d <;> decide

/-- Every character of a fuelled digit expansion is a decimal digit. -/
theorem natCharsAux_digits : ∀ (fuel n : Nat), (natCharsAux fuel n).all Char.isDigit = true := by
  intro fuel
  induction fuel with
  | zero => intro n; rfl
  | succ f ih =>
    intro n
    unfold natCharsAux
    split_ifs with h
    · simp [digitChar_isDigit n h]
    · rw [List.all_append]
      simp [ih (n / 10), digitChar_isDigit (n % 10) (Nat.mod_lt n (by omega))]

/-- Every character of the digit string of a natural number is a decimal
digit. -/
theorem natChars_digits (n : Nat) : (natChars n).all Char.isDigit = true :=
  natCharsAux_digits (n + 1) n

/-- A decimal digit character is not a decimal point. -/
theorem isDigit_ne_dot (c : Char) (h : c.isDigit = true) : c ≠ '.' := by
  intro hc
  rw [hc] at h
  exact absurd h (by decide)

/-- Digit expansion of a one-digit number. -/
theorem natCharsAux_one (fuel m : Nat) (hm : m < 10) (hf : 1 ≤ fuel) :
    natCharsAux fuel m = [digitChar m] := by
  cases fuel with
  | zero => omega
  | succ f => unfold natCharsAux; rw [if_pos hm]

/-- Digit expansion of a two-digit number. -/
theorem natCharsAux_two (fuel m : Nat) (hm1 : 10 ≤ m) (hm2 : m < 100) (hf : 2 ≤ fuel) :
    natCharsAux fuel m = [digitChar (m / 10), digitChar (m % 10)] := by
  cases fuel with
  | zero => omega
  | succ f =>
    unfold natCharsAux
    rw [if_neg (by omega)]
    rw [natCharsAux_one f (m / 10) (by omega) (by omega)]
    rfl

/-- Digit expansion of a three-digit number. -/
theorem natCharsAux_three (fuel m : Nat) (hm1 : 100 ≤ m) (hm2 : m < 1000) (hf : 3 ≤ fuel) :
    natCharsAux fuel m = [digitChar (m / 100), digitChar (m / 10 % 10), digitChar (m % 10)] := by
  cases fuel with
  | zero => omega
  | succ f =>
    unfold natCharsAux
    rw [if_neg (by omega)]
    rw [natCharsAux_two f (m / 10) (by omega) (by omega) (by omega)]
    have : m / 10 / 10 = m / 100 := by
      rw [Nat.div_div_eq_div_mul]
    rw [this]
    rfl

/-- The three-digit padding has exactly three characters, all decimal
digits. -/
theorem pad3_three_digits (r : Nat) (h : r < 1000) :
    (pad3 r).toList.length = 3 ∧ (pad3 r).toList.all Char.isDigit = true := by
  unfold pad3 natStr natChars
  by_cases h1 : r < 10
  · rw [if_pos h1, natCharsAux_one (r + 1) r h1 (by omega)]
    constructor
    · rfl
    · simp [List.asString, digitChar_isDigit r h1]
  · by_cases h2 : r < 100
    · rw [if_neg h1, if_pos h2, natCharsAux_two (r + 1) r (by omega) h2 (by omega)]
      constructor
      · rfl
      · simp [List.asString, digitChar_isDigit (r / 10) (by omega),
          digitChar_isDigit (r % 10) (by omega)]
    · rw [if_neg h1, if_neg h2, natCharsAux_three (r + 1) r (by omega) h (by omega)]
      constructor
      · rfl
      · simp [List.asString, digitChar_isDigit (r / 100) (by omega),
          digitChar_isDigit (r / 10 % 10) (by omega), digitChar_isDigit (r % 10) (by omega)]

/-- The flag group of a member input is an infix of the concatenated
per-input groups. -/
theorem inputOpts_infix_flatten {input : InputSpec} {l : List InputSpec} (h : input ∈ l) :
    inputOpts input <:+: (l.map inputOpts).flatten := by
  obtain ⟨s, t, rfl⟩ := List.append_of_mem h
  refine ⟨(s.map inputOpts).flatten, (t.map inputOpts).flatten, ?_⟩
  simp [List.append_assoc]

/-! ## Claim C8 -/

/-- Claim C8: every rendered trim value has exactly three digits after the
decimal point — `formatDuration` output splits as `a ++ "." ++ b` with `b`
three decimal digits and no decimal point in `a` — `10.5` renders as
`"10.500"`, and every trim flag `Build` emits (overall `-t` / `-ss` and
per-input `-t` / `-ss`) carries exactly the `formatDuration` rendering of
the value set on the specification. -/
theorem formatDuration_three_decimals (q : ℚ) (c : Command) (md : List (String × String))
    (input : InputSpec) :
    (∃ a b : String, formatDuration q = a ++ "." ++ b ∧ b.toList.length = 3 ∧
        b.toList.all Char.isDigit = true ∧ '.' ∉ a.toList) ∧
    formatDuration (mkRat 21 2) = "10.500" ∧
    (0 < c.duration → ["-t", formatDuration c.duration] <:+: c.Build md) ∧
    (0 < c.startTime → ["-ss", formatDuration c.startTime] <:+: c.Build md) ∧
    (input ∈ c.inputs → 0 < input.duration →
      ["-t", formatDuration input.duration] <:+: c.Build md) ∧
    (input ∈ c.inputs → 0 < input.startTime →
      ["-ss", formatDuration input.startTime] <:+: c.Build md) := by
  have hflat : (c.inputs.map inputOpts).flatten <:+: c.Build md := by
    refine ⟨overwriteArgs c, filterArgs c ++ videoSelArgs c ++ videoParamArgs c ++
      audioSelArgs c ++ audioParamArgs c ++ trimArgs c ++ metadataArgs md ++
      c.extraArgs ++ outputArgs c, ?_⟩
    rw [build_eq_segments]
    simp [List.append_assoc]
  refine ⟨?_, by decide, ?_, ?_, ?_, ?_⟩
  · simp only [formatDuration]
    refine ⟨(if q < 0 then "-" else "") ++
        natStr (roundHalfToEven (q.num.natAbs * 1000) q.den / 1000),
      pad3 (roundHalfToEven (q.num.natAbs * 1000) q.den % 1000), rfl, ?_, ?_, ?_⟩
    · exact (pad3_three_digits _ (Nat.mod_lt _ (by omega))).1
    · exact (pad3_three_digits _ (Nat.mod_lt _ (by omega))).2
    · intro hmem
      have ht : ((if q < 0 then "-" else "") ++
          natStr (roundHalfToEven (q.num.natAbs * 1000) q.den / 1000)).toList
          = (if q < 0 then "-" else "").toList ++
            natChars (roundHalfToEven (q.num.natAbs * 1000) q.den / 1000) := by
        cases hq : decide (q < 0) <;> rfl
      rw [ht] at hmem
      rcases List.mem_append.mp hmem with hm | hm
      · split_ifs at hm <;> simp at hm
      · exact absurd (List.all_eq_true.mp (natChars_digits _) _ hm) (by decide)
  · intro h
    refine ⟨overwriteArgs c ++ (c.inputs.map inputOpts).flatten ++ filterArgs c ++
      videoSelArgs c ++ videoParamArgs c ++ audioSelArgs c ++ audioParamArgs c,
      (if 0 < c.startTime then ["-ss", formatDuration c.startTime] else []) ++
        metadataArgs md ++ c.extraArgs ++ outputArgs c, ?_⟩
    rw [build_eq_segments]
    simp [trimArgs, h, List.append_assoc]
  · intro h
    refine ⟨overwriteArgs c ++ (c.inputs.map inputOpts).flatten ++ filterArgs c ++
      videoSelArgs c ++ videoParamArgs c ++ audioSelArgs c ++ audioParamArgs c ++
      (if 0 < c.duration then ["-t", formatDuration c.duration] else []),
      metadataArgs md ++ c.extraArgs ++ outputArgs c, ?_⟩
    rw [build_eq_segments]
    simp [trimArgs, h, List.append_assoc]
  · intro hmem h
    have h1 : ["-t", formatDuration input.duration] <:+: inputOpts input := by
      refine ⟨(if input.loop then ["-loop", "1"] else []) ++
        (if 0 < input.frameRate then ["-framerate", intStr input.frameRate] else []) ++
        (if input.format ≠ "" then ["-f", input.format] else []),
        (if 0 < input.startTime then ["-ss", formatDuration input.startTime] else []) ++
          ["-i", input.path], ?_⟩
      simp [inputOpts, h, List.append_assoc]
    exact (h1.trans (inputOpts_infix_flatten hmem)).trans hflat
  · intro hmem h
    have h1 : ["-ss", formatDuration input.startTime] <:+: inputOpts input := by
      refine ⟨(if input.loop then ["-loop", "1"] else []) ++
        (if 0 < input.frameRate then ["-framerate", intStr input.frameRate] else []) ++
        (if input.format ≠ "" then ["-f", input.format] else []) ++
        (if 0 < input.duration then ["-t", formatDuration input.duration] else []),
        ["-i", input.path], ?_⟩
      simp [inputOpts, h, List.append_assoc]
    exact (h1.trans (inputOpts_infix_flatten hmem)).trans hflat

/-- An input carrying both a duration trim and a start-time trim. -/
def inputTrimmed : InputSpec :=
  { path := "in.mp4", duration := mkRat 3 2, startTime := mkRat 1 2 }

/-- A command with overall and per-input trims set. -/
def cmdTrims : Command :=
  { New with
    inputs := [inputTrimmed]
    duration := mkRat 21 2
    startTime := 1
    outputPath := "o.mp4" }

/-- Witness for claim C8: the concrete value `10.5` and a command with all
four trim kinds set. -/
theorem formatDuration_three_decimals_witness :
    formatDuration (mkRat 21 2) = "10.500" ∧
    ["-t", formatDuration (mkRat 21 2)] <:+: cmdTrims.Build [] ∧
    ["-ss", formatDuration (1 : ℚ)] <:+: cmdTrims.Build [] ∧
    ["-t", formatDuration (mkRat 3 2)] <:+: cmdTrims.Build [] ∧
    ["-ss", formatDuration (mkRat 1 2)] <:+: cmdTrims.Build [] := by
  have h := formatDuration_three_decimals (mkRat 21 2) cmdTrims [] inputTrimmed
  exact ⟨h.2.1, h.2.2.1 (by decide), h.2.2.2.1 (by decide),
    h.2.2.2.2.1 (by decide) (by decide), h.2.2.2.2.2 (by decide) (by decide)⟩

/-! ## Claim C9 -/

/-- Claim C9: the debug string is the invocation name `"ffmpeg"` followed
by the rendered arguments joined by single spaces, where an argument is
`%q`-wrapped in double quotes exactly when it contains a space, tab,
newline, double quote or single quote, and is emitted bare (unchanged)
otherwise. -/
theorem commandString_quoting (c : Command) (md : List (String × String)) (arg : String) :
    CommandString c md = "ffmpeg " ++ String.intercalate " " ((c.Build md).map quoteIfNeeded) ∧
    (needsQuoting arg = true ↔ ∃ ch ∈ arg.toList,
        ch = ' ' ∨ ch = '\t' ∨ ch = '\n' ∨ ch = quoteChar ∨ ch = aposChar) ∧
    (needsQuoting arg = true → ∃ mid : String,
        quoteIfNeeded arg = ⟨[quoteChar]⟩ ++ mid ++ ⟨[quoteChar]⟩) ∧
    (needsQuoting arg = false → quoteIfNeeded arg = arg) := by
  refine ⟨rfl, ?_, ?_, ?_⟩
  · unfold needsQuoting
    rw [List.any_eq_true]
    constructor
    · rintro ⟨ch, hm, hch⟩
      refine ⟨ch, hm, ?_⟩
      simp only [Bool.or_eq_true, decide_eq_true_eq] at hch
      tauto
    · rintro ⟨ch, hm, hch⟩
      refine ⟨ch, hm, ?_⟩
      simp only [Bool.or_eq_true, decide_eq_true_eq]
      tauto
  · intro h
    refine ⟨String.join (arg.toList.map escapeChar), ?_⟩
    unfold quoteIfNeeded
    rw [if_pos h]
    rfl
  · intro h
    unfold quoteIfNeeded
    rw [if_neg (by simp [h])]

/-- Witness for claim C9: an argument with a space is wrapped in quotes, an
argument without any special character is emitted bare, and the debug
string of a concrete command is the joined quoted rendering. -/
theorem commandString_quoting_witness :
    (∃ mid : String, quoteIfNeeded "my video.mp4" = ⟨[quoteChar]⟩ ++ mid ++ ⟨[quoteChar]⟩) ∧
    quoteIfNeeded "input.mp4" = "input.mp4" ∧
    CommandString ((New.Input "my video.mp4").Output "out.mp4") []
      = "ffmpeg " ++ String.intercalate " "
          ((((New.Input "my video.mp4").Output "out.mp4").Build []).map quoteIfNeeded) :=
  ⟨(commandString_quoting New [] "my video.mp4").2.2.1 (by decide),
   (commandString_quoting New [] "input.mp4").2.2.2 (by decide),
   (commandString_quoting ((New.Input "my video.mp4").Output "out.mp4") [] "x").1⟩
